import Mathlib

/-!
Verification of the vibe-kanban remote shared-task service.

This development shallowly embeds the activity-ordering core of the server:

* the mutation repository and the per-organization activity counter
  (crates/remote/src/db/tasks.rs),
* the HTTP route layer and its error mapping
  (crates/remote/src/routes/tasks.rs, crates/remote/src/routes/error.rs),
* the in-process broadcast broker's subscriber filter
  (crates/remote/src/activity/broker.rs),
* the WebSocket session state machine
  (crates/remote/src/ws/session.rs).

Machine integers (i64) are embedded as Int; Rust strings as Lean String with
byte length String.utf8ByteSize; Postgres rows as Lean structures; a
transaction that fails is embedded as returning the unchanged database state
(rollback).  Code of the repository that is not part of the provided sources
(ActivityRepository::fetch_since, the projects repository, the utils::ws
constants) is modelled from the specification and marked as such.
-/

namespace VibeKanban

/-- A contiguous ascending run of integer sequence numbers:
seqRun s n = [s, s+1, ..., s+n-1]. -/
def seqRun (s : Int) (n : Nat) : List Int :=
  (List.range n).map (fun (i : Nat) => s + (i : Int))

theorem seqRun_zero (s : Int) : seqRun s 0 = [] := rfl

theorem seqRun_succ_last (s : Int) (n : Nat) :
    seqRun s (n + 1) = seqRun s n ++ [s + (n : Int)] := by
  simp [seqRun, List.range_succ]

theorem mem_seqRun (x : Int) (s : Int) (n : Nat) :
    x ∈ seqRun s n ↔ s ≤ x ∧ x < s + n := by
  simp only [seqRun, List.mem_map, List.mem_range]
  constructor
  · rintro ⟨i, hi, rfl⟩
    omega
  · rintro ⟨h1, h2⟩
    exact ⟨(x - s).toNat, by omega, by omega⟩

theorem seqRun_append (s : Int) (a b : Nat) :
    seqRun s a ++ seqRun (s + a) b = seqRun s (a + b) := by
  induction b with
  | zero => simp [seqRun]
  | succ n ih =>
      rw [seqRun_succ_last, ← List.append_assoc, ih, show a + (n + 1) = (a + n) + 1 from rfl,
        seqRun_succ_last]
      congr 2
      omega

theorem seqRun_succ_cons (s : Int) (n : Nat) :
    seqRun s (n + 1) = s :: seqRun (s + 1) n := by
  simp only [seqRun, List.range_succ_eq_map, List.map_cons, List.map_map, Nat.cast_zero,
    add_zero]
  congr 1
  apply List.map_congr_left
  intro i _
  simp only [Function.comp_apply]
  omega

theorem seqRun_getLast (s : Int) (n : Nat) (h : 0 < n) :
    (seqRun s n).getLast? = some (s + n - 1) := by
  obtain ⟨m, rfl⟩ : ∃ m, n = m + 1 := ⟨n - 1, by omega⟩
  rw [seqRun_succ_last]
  simp only [List.getLast?_append, List.getLast?_singleton, Option.or_some]
  congr 1
  omega

/-! ## Data model (crates/remote/src/db/tasks.rs) -/

/-- TaskStatus from db/tasks.rs. -/
inductive TaskStatus
  | todo
  | inProgress
  | inReview
  | done
  | cancelled
deriving DecidableEq, Repr

/-- ProjectMetadata: GitHub repository metadata carried in activity payloads
(fields read off the bulk_fetch query in db/tasks.rs and api/tasks.rs). -/
structure ProjectMetadata where
  github_repository_id : Int
  owner : String
  name : String
deriving DecidableEq, Repr

/-- Modelled from the spec: a project row.  crates/remote/src/db/projects.rs is
not among the provided sources; the shape is reconstructed from its callers in
db/tasks.rs (find_by_github_repo_id, find_by_id, insert, metadata) and from
spec sections 3 and 4.5: a row carries an id, its organization and the GitHub
repository metadata. -/
structure Project where
  id : Nat
  organization_id : String
  metadata : ProjectMetadata
deriving DecidableEq, Repr

/-- SharedTask row from db/tasks.rs.  UUIDs are embedded as Nat, timestamps as
Nat clock values supplied by the caller of each operation (NOW()). -/
structure SharedTask where
  id : Nat
  organization_id : String
  project_id : Nat
  creator_user_id : Option String
  assignee_user_id : Option String
  deleted_by_user_id : Option String
  title : String
  description : Option String
  status : TaskStatus
  version : Int
  deleted_at : Option Nat
  shared_at : Option Nat
  created_at : Nat
  updated_at : Nat
deriving DecidableEq, Repr

/-- One row of the activity table, as written by insert_activity in
db/tasks.rs: organization_id, seq, assignee_user_id, event_type and the
payload (whose task snapshot is kept; project/user parts of the JSON payload
are not needed by any claim). -/
structure ActivityRow where
  organization_id : String
  seq : Int
  assignee_user_id : Option String
  event_type : String
  payload_task : SharedTask
deriving DecidableEq, Repr

/-- The persistent server state touched by the mutation repository:
shared_tasks, projects, activity and organization_activity_counters. -/
structure Db where
  tasks : List SharedTask
  projects : List Project
  activity : List ActivityRow
  counters : List (String × Int)
deriving DecidableEq, Repr

def emptyDb : Db := ⟨[], [], [], []⟩

/-- Association-list read of organization_activity_counters. -/
def lookupCounter : List (String × Int) → String → Option Int
  | [], _ => none
  | (o, n) :: rest, org => if o = org then some n else lookupCounter rest org

/-- The counter CTE of insert_activity: INSERT (org, 1) ON CONFLICT DO UPDATE
SET last_seq = last_seq + 1 RETURNING last_seq. -/
def bumpCounter : List (String × Int) → String → List (String × Int) × Int
  | [], org => ([(org, 1)], 1)
  | (o, n) :: rest, org =>
    if o = org then ((o, n + 1) :: rest, n + 1)
    else
      let r := bumpCounter rest org
      ((o, n) :: r.1, r.2)

/-- Current last_seq of an organization (0 when no counter row exists). -/
def counterOf (db : Db) (org : String) : Int :=
  (lookupCounter db.counters org).getD 0

/-- insert_activity from db/tasks.rs: inside the mutation transaction, bump
the organization counter and append one activity row carrying the returned
last_seq. -/
def insert_activity (db : Db) (task : SharedTask) (event_type : String) : Db :=
  let r := bumpCounter db.counters task.organization_id
  { db with
    counters := r.1
    activity := db.activity ++
      [⟨task.organization_id, r.2, task.assignee_user_id, event_type, task⟩] }

/-- Committed activity seq values of one organization, in insertion order. -/
def seqsOf (db : Db) (org : String) : List Int :=
  (db.activity.filter (fun r => r.organization_id == org)).map (fun r => r.seq)

/-! ## Errors and text-size guard -/

def MAX_SHARED_TASK_TEXT_BYTES : Nat := 50 * 1024

/-- SharedTaskError from db/tasks.rs (the Project/Identity/Database/
Serialization variants wrap external failures that the pure embedding does not
produce). -/
inductive SharedTaskError
  | notFound
  | forbidden
  | conflict (message : String)
  | payloadTooLarge
deriving DecidableEq, Repr

/-- ensure_text_size from db/tasks.rs: Rust String::len is the UTF-8 byte
count, so it is embedded as String.utf8ByteSize. -/
def ensure_text_size (title : String) (description : Option String) :
    Except SharedTaskError Unit :=
  let total := title.utf8ByteSize + ((description.map String.utf8ByteSize).getD 0)
  if total > MAX_SHARED_TASK_TEXT_BYTES then .error .payloadTooLarge else .ok ()

/-! ## Repository operations (SharedTaskRepository) -/

structure CreateSharedTaskData where
  project : ProjectMetadata
  title : String
  description : Option String
  creator_user_id : String
  assignee_user_id : Option String
deriving DecidableEq, Repr

structure UpdateSharedTaskData where
  title : Option String
  description : Option String
  status : Option TaskStatus
  version : Option Int
  acting_user_id : String
deriving DecidableEq, Repr

structure AssignTaskData where
  new_assignee_user_id : Option String
  previous_assignee_user_id : Option String
  version : Option Int
deriving DecidableEq, Repr

structure DeleteTaskData where
  acting_user_id : String
  version : Option Int
deriving DecidableEq, Repr

/-- Modelled from the spec: ProjectRepository::find_by_github_repo_id (the
projects repository source is not provided).  Looks up a project of the
organization by GitHub repository id. -/
def findProjectByGithubRepoId (db : Db) (org : String) (repoId : Int) : Option Project :=
  db.projects.find? (fun p => p.organization_id == org
    && p.metadata.github_repository_id == repoId)

/-- Modelled from the spec: ProjectRepository::find_by_id (the projects
repository source is not provided). -/
def findProjectById (db : Db) (project_id : Nat) (org : String) : Option Project :=
  db.projects.find? (fun p => p.id == project_id && p.organization_id == org)

/-- SharedTaskRepository::find_by_id: the row with this id in this
organization whose deleted_at IS NULL. -/
def find_by_id (db : Db) (organization_id : String) (task_id : Nat) : Option SharedTask :=
  db.tasks.find? (fun t => t.id == task_id && t.organization_id == organization_id
    && t.deleted_at == none)

/-- WHERE clause of the conditional UPDATE in SharedTaskRepository::update:
id, organization, version = COALESCE(supplied, version), assignee equals the
acting user, and not soft-deleted. -/
def updateMatches (org : String) (task_id : Nat) (data : UpdateSharedTaskData)
    (t : SharedTask) : Bool :=
  t.id == task_id && t.organization_id == org
    && (data.version.getD t.version) == t.version
    && t.assignee_user_id == some data.acting_user_id
    && t.deleted_at == none

/-- SET clause of SharedTaskRepository::update: COALESCE keeps a column when
the request leaves the field unset; version increments; updated_at = NOW(). -/
def updatedRow (data : UpdateSharedTaskData) (now : Nat) (t : SharedTask) : SharedTask :=
  { t with
    title := data.title.getD t.title
    description := data.description.or t.description
    status := data.status.getD t.status
    version := t.version + 1
    updated_at := now }

/-- SharedTaskRepository::update.  The SQL statement updates every row
matching the WHERE clause (ids are unique in Postgres, so at most one) and
RETURNING yields the updated row; zero rows map to Conflict("task version
mismatch").  ensure_text_size runs on the post-update row and a failure rolls
the transaction back; so does a missing project row. -/
def repoUpdate (db : Db) (now : Nat) (org : String) (task_id : Nat)
    (data : UpdateSharedTaskData) : Db × Except SharedTaskError SharedTask :=
  match db.tasks.find? (fun t => updateMatches org task_id data t) with
  | none => (db, .error (.conflict "task version mismatch"))
  | some t =>
    match ensure_text_size (updatedRow data now t).title
        (updatedRow data now t).description with
    | .error e => (db, .error e)
    | .ok _ =>
      match findProjectById db (updatedRow data now t).project_id org with
      | none => (db, .error (.conflict "project not found for shared task"))
      | some _ =>
        (insert_activity
          { db with tasks := db.tasks.map (fun r =>
              if updateMatches org task_id data r then updatedRow data now r else r) }
          (updatedRow data now t) "task.updated",
         .ok (updatedRow data now t))

/-- WHERE clause of SharedTaskRepository::assign_task: id, organization,
version = COALESCE(supplied, version), ($3 IS NULL OR assignee = $3) for the
optional previous assignee, and not soft-deleted. -/
def assignMatches (org : String) (task_id : Nat) (data : AssignTaskData)
    (t : SharedTask) : Bool :=
  t.id == task_id && t.organization_id == org
    && (data.version.getD t.version) == t.version
    && (data.previous_assignee_user_id == none
        || t.assignee_user_id == data.previous_assignee_user_id)
    && t.deleted_at == none

/-- SET clause of SharedTaskRepository::assign_task. -/
def assignedRow (data : AssignTaskData) (now : Nat) (t : SharedTask) : SharedTask :=
  { t with
    assignee_user_id := data.new_assignee_user_id
    version := t.version + 1
    updated_at := now }

/-- SharedTaskRepository::assign_task. -/
def repoAssign (db : Db) (now : Nat) (org : String) (task_id : Nat)
    (data : AssignTaskData) : Db × Except SharedTaskError SharedTask :=
  match db.tasks.find? (fun t => assignMatches org task_id data t) with
  | none => (db, .error (.conflict "task version or previous assignee mismatch"))
  | some t =>
    match findProjectById db (assignedRow data now t).project_id org with
    | none => (db, .error (.conflict "project not found for shared task"))
    | some _ =>
      (insert_activity
        { db with tasks := db.tasks.map (fun r =>
            if assignMatches org task_id data r then assignedRow data now r else r) }
        (assignedRow data now t) "task.reassigned",
       .ok (assignedRow data now t))

/-- WHERE clause of SharedTaskRepository::delete_task: id, organization,
version = COALESCE(supplied, version), assignee equals the acting user, and
not yet soft-deleted. -/
def deleteMatches (org : String) (task_id : Nat) (data : DeleteTaskData)
    (t : SharedTask) : Bool :=
  t.id == task_id && t.organization_id == org
    && (data.version.getD t.version) == t.version
    && t.assignee_user_id == some data.acting_user_id
    && t.deleted_at == none

/-- SET clause of SharedTaskRepository::delete_task (soft delete). -/
def deletedRow (data : DeleteTaskData) (now : Nat) (t : SharedTask) : SharedTask :=
  { t with
    deleted_at := some now
    deleted_by_user_id := some data.acting_user_id
    version := t.version + 1
    updated_at := now }

/-- SharedTaskRepository::delete_task. -/
def repoDelete (db : Db) (now : Nat) (org : String) (task_id : Nat)
    (data : DeleteTaskData) : Db × Except SharedTaskError SharedTask :=
  match db.tasks.find? (fun t => deleteMatches org task_id data t) with
  | none => (db, .error (.conflict "task version mismatch or user not authorized"))
  | some t =>
    match findProjectById db (deletedRow data now t).project_id org with
    | none => (db, .error (.conflict "project not found for shared task"))
    | some _ =>
      (insert_activity
        { db with tasks := db.tasks.map (fun r =>
            if deleteMatches org task_id data r then deletedRow data now r else r) }
        (deletedRow data now t) "task.deleted",
       .ok (deletedRow data now t))

/-- SharedTaskRepository::create.  new_task_id and new_project_id embed the
UUIDs Postgres generates for the inserted rows.  The defaults of the inserted
task row (version, status, timestamps) are not in the provided sources
(schema/migrations); per spec section 3 the server assigns version = 1, the
status enum starts at todo, and deleted fields are NULL.  fetch_user and the
JSON serialisation of the payload are external effects not modelled; the
in-transaction order (text-size check, project find-or-insert, task insert,
activity insert, commit) follows the source. -/
def createdTask (now : Nat) (org : String) (data : CreateSharedTaskData)
    (new_task_id pid : Nat) : SharedTask :=
  { id := new_task_id
    organization_id := org
    project_id := pid
    creator_user_id := some data.creator_user_id
    assignee_user_id := data.assignee_user_id
    deleted_by_user_id := none
    title := data.title
    description := data.description
    status := .todo
    version := 1
    deleted_at := none
    shared_at := some now
    created_at := now
    updated_at := now }

def repoCreate (db : Db) (now : Nat) (org : String) (data : CreateSharedTaskData)
    (new_task_id new_project_id : Nat) : Db × Except SharedTaskError SharedTask :=
  match ensure_text_size data.title data.description with
  | .error e => (db, .error e)
  | .ok _ =>
    match findProjectByGithubRepoId db org data.project.github_repository_id with
    | some p =>
      (insert_activity
        { db with tasks := db.tasks ++ [createdTask now org data new_task_id p.id] }
        (createdTask now org data new_task_id p.id) "task.created",
       .ok (createdTask now org data new_task_id p.id))
    | none =>
      (insert_activity
        { db with
          projects := db.projects ++ [⟨new_project_id, org, data.project⟩]
          tasks := db.tasks ++ [createdTask now org data new_task_id new_project_id] }
        (createdTask now org data new_task_id new_project_id) "task.created",
       .ok (createdTask now org data new_task_id new_project_id))

/-! ## HTTP routes (crates/remote/src/routes/tasks.rs, routes/error.rs) -/

/-- The observable part of an HTTP response: status code plus either the
returned task or the JSON error message. -/
inductive HttpResponse
  | ok (status : Nat) (task : SharedTask)
  | err (status : Nat) (message : String)
deriving DecidableEq, Repr

/-- task_error_response from routes/error.rs. -/
def task_error_response : SharedTaskError → HttpResponse
  | .notFound => .err 404 "task not found"
  | .forbidden => .err 403 "only the assignee can modify this task"
  | .conflict message => .err 409 message
  | .payloadTooLarge => .err 400 "title and description cannot exceed 50 KiB combined"

structure UpdateSharedTaskRequest where
  title : Option String
  description : Option String
  status : Option TaskStatus
  version : Option Int
deriving DecidableEq, Repr

structure AssignSharedTaskRequest where
  new_assignee_user_id : Option String
  version : Option Int
deriving DecidableEq, Repr

structure DeleteSharedTaskRequest where
  version : Option Int
deriving DecidableEq, Repr

/-- update_shared_task from routes/tasks.rs: load the task (404 when absent),
reject a non-assignee caller with Forbidden, pre-check the merged text size,
then run the repository update. -/
def update_shared_task (db : Db) (now : Nat) (ctxOrg ctxUser : String) (task_id : Nat)
    (payload : UpdateSharedTaskRequest) : Db × HttpResponse :=
  match find_by_id db ctxOrg task_id with
  | none => (db, task_error_response .notFound)
  | some existing =>
    if existing.assignee_user_id == some ctxUser then
      let next_title := payload.title.getD existing.title
      let next_description := payload.description.or existing.description
      match ensure_text_size next_title next_description with
      | .error e => (db, task_error_response e)
      | .ok _ =>
        match repoUpdate db now ctxOrg task_id
          ⟨payload.title, payload.description, payload.status, payload.version, ctxUser⟩ with
        | (db2, .ok t) => (db2, .ok 200 t)
        | (db2, .error e) => (db2, task_error_response e)
    else (db, task_error_response .forbidden)

/-- assign_task from routes/tasks.rs.  The identity check on the new assignee
(IdentityRepository::ensure_user, an external Clerk-backed lookup) is not
modelled; it runs after the Forbidden check and before the repository call. -/
def assign_shared_task (db : Db) (now : Nat) (ctxOrg ctxUser : String) (task_id : Nat)
    (payload : AssignSharedTaskRequest) : Db × HttpResponse :=
  match find_by_id db ctxOrg task_id with
  | none => (db, task_error_response .notFound)
  | some existing =>
    if existing.assignee_user_id == some ctxUser then
      match repoAssign db now ctxOrg task_id
        ⟨payload.new_assignee_user_id, some ctxUser, payload.version⟩ with
      | (db2, .ok t) => (db2, .ok 200 t)
      | (db2, .error e) => (db2, task_error_response e)
    else (db, task_error_response .forbidden)

/-- delete_shared_task from routes/tasks.rs (the request body is optional). -/
def delete_shared_task (db : Db) (now : Nat) (ctxOrg ctxUser : String) (task_id : Nat)
    (payload : Option DeleteSharedTaskRequest) : Db × HttpResponse :=
  match find_by_id db ctxOrg task_id with
  | none => (db, task_error_response .notFound)
  | some existing =>
    if existing.assignee_user_id == some ctxUser then
      match repoDelete db now ctxOrg task_id
        ⟨ctxUser, (payload.map (fun b => b.version)).getD none⟩ with
      | (db2, .ok t) => (db2, .ok 200 t)
      | (db2, .error e) => (db2, task_error_response e)
    else (db, task_error_response .forbidden)

/-! ## Mutation traces for the sequence invariant -/

/-- One committed-or-rolled-back repository call, with its NOW() clock value
and, for create, the generated row ids. -/
inductive Op
  | create (now : Nat) (org : String) (data : CreateSharedTaskData)
      (new_task_id new_project_id : Nat)
  | update (now : Nat) (org : String) (task_id : Nat) (data : UpdateSharedTaskData)
  | assign (now : Nat) (org : String) (task_id : Nat) (data : AssignTaskData)
  | delete (now : Nat) (org : String) (task_id : Nat) (data : DeleteTaskData)

def applyOp (db : Db) : Op → Db × Except SharedTaskError SharedTask
  | .create now org data tid pid => repoCreate db now org data tid pid
  | .update now org task_id data => repoUpdate db now org task_id data
  | .assign now org task_id data => repoAssign db now org task_id data
  | .delete now org task_id data => repoDelete db now org task_id data

def Op.org : Op → String
  | .create _ org _ _ _ => org
  | .update _ org _ _ => org
  | .assign _ org _ _ => org
  | .delete _ org _ _ => org

def Op.eventType : Op → String
  | .create _ _ _ _ _ => "task.created"
  | .update _ _ _ _ => "task.updated"
  | .assign _ _ _ _ => "task.reassigned"
  | .delete _ _ _ _ => "task.deleted"

def runOps (db : Db) (ops : List Op) : Db :=
  ops.foldl (fun d op => (applyOp d op).1) db

/-! ## Lemmas: counter allocation and the activity append -/

theorem bumpCounter_seq (counters : List (String × Int)) (org : String) :
    (bumpCounter counters org).2 = (lookupCounter counters org).getD 0 + 1 := by
  induction counters with
  | nil => rfl
  | cons head rest ih =>
      obtain ⟨o, n⟩ := head
      by_cases h : o = org <;> simp [bumpCounter, lookupCounter, h, ih]

theorem bumpCounter_lookup_self (counters : List (String × Int)) (org : String) :
    lookupCounter (bumpCounter counters org).1 org = some (bumpCounter counters org).2 := by
  induction counters with
  | nil => simp [bumpCounter, lookupCounter]
  | cons head rest ih =>
      obtain ⟨o, n⟩ := head
      by_cases h : o = org <;> simp [bumpCounter, lookupCounter, h, ih]

theorem bumpCounter_lookup_other (counters : List (String × Int)) (org o : String)
    (h : o ≠ org) :
    lookupCounter (bumpCounter counters org).1 o = lookupCounter counters o := by
  induction counters with
  | nil => simp [bumpCounter, lookupCounter, Ne.symm h]
  | cons head rest ih =>
      obtain ⟨p, n⟩ := head
      by_cases hp : p = org
      · subst hp
        simp [bumpCounter, lookupCounter, h, Ne.symm h]
      · by_cases hpo : p = o
        · subst hpo
          simp [bumpCounter, lookupCounter, hp, ih]
        · simp [bumpCounter, lookupCounter, hp, hpo, ih]

/-- The activity row appended by insert_activity carries seq = last_seq + 1. -/
theorem insert_activity_activity (db : Db) (task : SharedTask) (et : String) :
    (insert_activity db task et).activity = db.activity ++
      [⟨task.organization_id, counterOf db task.organization_id + 1,
        task.assignee_user_id, et, task⟩] := by
  simp [insert_activity, counterOf, bumpCounter_seq]

theorem insert_activity_counter_self (db : Db) (task : SharedTask) (et : String) :
    counterOf (insert_activity db task et) task.organization_id =
      counterOf db task.organization_id + 1 := by
  simp [insert_activity, counterOf, bumpCounter_lookup_self, bumpCounter_seq]

theorem insert_activity_counter_other (db : Db) (task : SharedTask) (et : String)
    (org : String) (h : org ≠ task.organization_id) :
    counterOf (insert_activity db task et) org = counterOf db org := by
  simp [insert_activity, counterOf, bumpCounter_lookup_other _ _ _ h]

theorem seqsOf_append (db : Db) (rows : List ActivityRow) (org : String) :
    seqsOf { db with activity := db.activity ++ rows } org =
      seqsOf db org ++ seqsOf { db with activity := rows } org := by
  simp [seqsOf]

theorem seqsOf_insert_self (db : Db) (task : SharedTask) (et : String) :
    seqsOf (insert_activity db task et) task.organization_id =
      seqsOf db task.organization_id ++ [counterOf db task.organization_id + 1] := by
  simp [seqsOf, insert_activity, counterOf, bumpCounter_seq]

theorem seqsOf_insert_other (db : Db) (task : SharedTask) (et : String)
    (org : String) (h : org ≠ task.organization_id) :
    seqsOf (insert_activity db task et) org = seqsOf db org := by
  simp [seqsOf, insert_activity, Ne.symm h]

/-- Invariant behind C1: every organization's committed activity rows carry
exactly the seq values 1, ..., last_seq. -/
def SeqInv (db : Db) : Prop :=
  ∀ org, 0 ≤ counterOf db org ∧ seqsOf db org = seqRun 1 (counterOf db org).toNat

theorem SeqInv_empty : SeqInv emptyDb := by
  intro org
  constructor
  · simp [counterOf, emptyDb, lookupCounter]
  · simp [seqsOf, counterOf, emptyDb, lookupCounter, seqRun]

theorem SeqInv_insert (db : Db) (task : SharedTask) (et : String) (h : SeqInv db) :
    SeqInv (insert_activity db task et) := by
  intro org
  by_cases horg : org = task.organization_id
  · subst horg
    obtain ⟨hnn, hrun⟩ := h task.organization_id
    rw [insert_activity_counter_self, seqsOf_insert_self, hrun]
    refine ⟨by omega, ?_⟩
    have htn : (counterOf db task.organization_id + 1).toNat =
        (counterOf db task.organization_id).toNat + 1 := by omega
    rw [htn, seqRun_succ_last]
    congr 2
    omega
  · obtain ⟨hnn, hrun⟩ := h org
    rw [insert_activity_counter_other _ _ _ _ horg, seqsOf_insert_other _ _ _ _ horg]
    exact ⟨hnn, hrun⟩

/-- SeqInv ignores the tasks and projects columns. -/
theorem SeqInv_set_tasks (db : Db) (ts : List SharedTask) (ps : List Project)
    (h : SeqInv db) : SeqInv { db with tasks := ts, projects := ps } :=
  fun org => h org

/-! ## Per-operation step characterization -/

/-- Any repository error leaves the database untouched (transaction
rollback). -/
theorem applyOp_rollback (db : Db) (op : Op) (db' : Db) (e : SharedTaskError)
    (h : applyOp db op = (db', .error e)) : db' = db := by
  cases op <;>
    simp only [applyOp, repoCreate, repoUpdate, repoAssign, repoDelete] at h <;>
    repeat' split at h
  all_goals
    first
      | (simp only [Prod.mk.injEq] at h; exact h.1.symm)
      | simp at h

theorem repoCreate_ok (db : Db) (now : Nat) (org : String) (data : CreateSharedTaskData)
    (tid pid : Nat) (db' : Db) (t : SharedTask)
    (h : repoCreate db now org data tid pid = (db', .ok t)) :
    t.organization_id = org ∧
    db'.activity = db.activity ++
      [⟨org, counterOf db org + 1, t.assignee_user_id, "task.created", t⟩] := by
  unfold repoCreate at h
  split at h
  · simp at h
  · split at h <;>
    · simp only [Prod.mk.injEq, Except.ok.injEq] at h
      obtain ⟨hdb, ht⟩ := h
      subst hdb
      subst ht
      refine ⟨rfl, ?_⟩
      rw [insert_activity_activity]
      rfl

theorem repoUpdate_ok (db : Db) (now : Nat) (org : String) (task_id : Nat)
    (data : UpdateSharedTaskData) (db' : Db) (t : SharedTask)
    (h : repoUpdate db now org task_id data = (db', .ok t)) :
    t.organization_id = org ∧
    db'.activity = db.activity ++
      [⟨org, counterOf db org + 1, t.assignee_user_id, "task.updated", t⟩] := by
  unfold repoUpdate at h
  split at h
  · simp at h
  · rename_i t0 hfind
    split at h
    · simp at h
    · split at h
      · simp at h
      · simp only [Prod.mk.injEq, Except.ok.injEq] at h
        obtain ⟨hdb, ht⟩ := h
        subst hdb
        subst ht
        have hp := List.find?_some hfind
        simp only [updateMatches, Bool.and_eq_true, beq_iff_eq] at hp
        have horg : t0.organization_id = org := hp.1.1.1.2
        refine ⟨horg, ?_⟩
        rw [insert_activity_activity]
        simp [updatedRow, horg, counterOf]

theorem repoAssign_ok (db : Db) (now : Nat) (org : String) (task_id : Nat)
    (data : AssignTaskData) (db' : Db) (t : SharedTask)
    (h : repoAssign db now org task_id data = (db', .ok t)) :
    t.organization_id = org ∧
    db'.activity = db.activity ++
      [⟨org, counterOf db org + 1, t.assignee_user_id, "task.reassigned", t⟩] := by
  unfold repoAssign at h
  split at h
  · simp at h
  · rename_i t0 hfind
    split at h
    · simp at h
    · simp only [Prod.mk.injEq, Except.ok.injEq] at h
      obtain ⟨hdb, ht⟩ := h
      subst hdb
      subst ht
      have hp := List.find?_some hfind
      simp only [assignMatches, Bool.and_eq_true, beq_iff_eq] at hp
      have horg : t0.organization_id = org := hp.1.1.1.2
      refine ⟨horg, ?_⟩
      rw [insert_activity_activity]
      simp [assignedRow, horg, counterOf]

theorem repoDelete_ok (db : Db) (now : Nat) (org : String) (task_id : Nat)
    (data : DeleteTaskData) (db' : Db) (t : SharedTask)
    (h : repoDelete db now org task_id data = (db', .ok t)) :
    t.organization_id = org ∧
    db'.activity = db.activity ++
      [⟨org, counterOf db org + 1, t.assignee_user_id, "task.deleted", t⟩] := by
  unfold repoDelete at h
  split at h
  · simp at h
  · rename_i t0 hfind
    split at h
    · simp at h
    · simp only [Prod.mk.injEq, Except.ok.injEq] at h
      obtain ⟨hdb, ht⟩ := h
      subst hdb
      subst ht
      have hp := List.find?_some hfind
      simp only [deleteMatches, Bool.and_eq_true, beq_iff_eq] at hp
      have horg : t0.organization_id = org := hp.1.1.1.2
      refine ⟨horg, ?_⟩
      rw [insert_activity_activity]
      simp [deletedRow, horg, counterOf]

/-- Any successful repository call appends exactly one activity row to the
acting organization, whose seq is the organization's previous last_seq + 1,
and whose payload snapshots the post-mutation task. -/
theorem applyOp_ok (db : Db) (op : Op) (db' : Db) (t : SharedTask)
    (h : applyOp db op = (db', .ok t)) :
    t.organization_id = op.org ∧
    db'.activity = db.activity ++
      [⟨op.org, counterOf db op.org + 1, t.assignee_user_id, op.eventType, t⟩] := by
  cases op with
  | create now org data tid pid => exact repoCreate_ok db now org data tid pid db' t h
  | update now org task_id data => exact repoUpdate_ok db now org task_id data db' t h
  | assign now org task_id data => exact repoAssign_ok db now org task_id data db' t h
  | delete now org task_id data => exact repoDelete_ok db now org task_id data db' t h

/-- Any successful repository call produces exactly an insert_activity commit
over a state differing from db only in tasks/projects. -/
theorem applyOp_ok_shape (db : Db) (op : Op) (db' : Db) (t : SharedTask)
    (h : applyOp db op = (db', .ok t)) :
    ∃ ts ps et, db' = insert_activity { db with tasks := ts, projects := ps } t et := by
  cases op <;>
    simp only [applyOp, repoCreate, repoUpdate, repoAssign, repoDelete] at h <;>
    repeat' split at h
  all_goals first
    | (simp at h; done)
    | (simp only [Prod.mk.injEq, Except.ok.injEq] at h
       obtain ⟨hdb, ht⟩ := h
       subst hdb
       subst ht
       exact ⟨_, _, _, rfl⟩)

theorem SeqInv_applyOp (db : Db) (op : Op) (h : SeqInv db) : SeqInv (applyOp db op).1 := by
  rcases hres : applyOp db op with ⟨db', res⟩
  cases res with
  | error e =>
      have hd := applyOp_rollback db op db' e hres
      simpa [hd] using h
  | ok t =>
      obtain ⟨ts, ps, et, rfl⟩ := applyOp_ok_shape db op db' t hres
      exact SeqInv_insert _ _ _ (SeqInv_set_tasks db ts ps h)

theorem SeqInv_runOps (ops : List Op) (db : Db) (h : SeqInv db) : SeqInv (runOps db ops) := by
  induction ops generalizing db with
  | nil => exact h
  | cons op rest ih =>
      have h2 := SeqInv_applyOp db op h
      simpa [runOps] using ih _ h2

/-- C1: every committed task mutation (create, update, assign, delete)
inserts exactly one activity row in the same transaction as the task-row
mutation, with seq equal to the organization counter's previous last_seq + 1,
and a failed transaction inserts nothing and changes nothing; hence over any
trace of repository operations from the empty database each organization's
committed activity.seq values are exactly the gapless strictly increasing
sequence 1, 2, ..., K (where K is the organization counter's final value). -/
theorem c1_activity_seq_gapless :
    (∀ db op db' e, applyOp db op = (db', Except.error e) → db' = db) ∧
    (∀ db op db' t, applyOp db op = (db', Except.ok t) →
      db'.activity = db.activity ++
        [⟨op.org, counterOf db op.org + 1, t.assignee_user_id, op.eventType, t⟩]) ∧
    (∀ ops org, seqsOf (runOps emptyDb ops) org =
      seqRun 1 (counterOf (runOps emptyDb ops) org).toNat) := by
  refine ⟨applyOp_rollback, ?_, ?_⟩
  · intro db op db' t h
    exact (applyOp_ok db op db' t h).2
  · intro ops org
    exact (SeqInv_runOps ops emptyDb SeqInv_empty org).2

def c1SampleData : CreateSharedTaskData :=
  ⟨⟨7, "owner", "repo"⟩, "hello", none, "alice", some "alice"⟩

def c1SampleOp : Op := .create 5 "orgA" c1SampleData 1 2

def c1FailingOp : Op := .update 0 "orgA" 3 ⟨none, none, none, none, "alice"⟩

theorem c1_activity_seq_gapless_witness :
    (applyOp emptyDb c1FailingOp).1 = emptyDb ∧
    (applyOp emptyDb c1SampleOp).1.activity = emptyDb.activity ++
      [⟨c1SampleOp.org, counterOf emptyDb c1SampleOp.org + 1,
        (createdTask 5 "orgA" c1SampleData 1 2).assignee_user_id,
        c1SampleOp.eventType, createdTask 5 "orgA" c1SampleData 1 2⟩] ∧
    seqsOf (runOps emptyDb [c1SampleOp]) "orgA" =
      seqRun 1 (counterOf (runOps emptyDb [c1SampleOp]) "orgA").toNat :=
  ⟨c1_activity_seq_gapless.1 emptyDb c1FailingOp emptyDb
      (.conflict "task version mismatch") rfl,
   c1_activity_seq_gapless.2.1 emptyDb c1SampleOp (applyOp emptyDb c1SampleOp).1
      (createdTask 5 "orgA" c1SampleData 1 2) rfl,
   c1_activity_seq_gapless.2.2 [c1SampleOp] "orgA"⟩

/-! ## Route-level lemmas (routes/tasks.rs) -/

/-- find? returns the designated element when it is the unique possible
match. -/
theorem find?_of_unique {α : Type} (p : α → Bool) (l : List α) (t : α)
    (huniq : ∀ r ∈ l, p r = true → r = t) (hmem : t ∈ l) (hp : p t = true) :
    l.find? p = some t := by
  induction l with
  | nil => cases hmem
  | cons a rest ih =>
      by_cases ha : p a = true
      · have hat : a = t := huniq a (List.mem_cons_self a rest) ha
        subst hat
        simp [List.find?_cons, ha]
      · have hta : t ≠ a := fun he => ha (he ▸ hp)
        have hmem2 : t ∈ rest := by
          cases hmem with
          | head => exact absurd rfl hta
          | tail _ hm => exact hm
        rw [Bool.not_eq_true] at ha
        rw [List.find?_cons, ha]
        exact ih (fun r hr hpr => huniq r (List.mem_cons_of_mem a hr) hpr) hmem2

/-- Hypotheses describing "the task exists in the organization and is live,
and task ids are unique in the table" (Postgres primary key). -/
def TaskInDb (db : Db) (org : String) (task_id : Nat) (t : SharedTask) : Prop :=
  (∀ r ∈ db.tasks, r.id = task_id → r = t) ∧
  t ∈ db.tasks ∧ t.id = task_id ∧ t.organization_id = org ∧ t.deleted_at = none

theorem find_by_id_some (db : Db) (org : String) (task_id : Nat) (t : SharedTask)
    (h : TaskInDb db org task_id t) : find_by_id db org task_id = some t := by
  obtain ⟨huniq, hmem, hid, horg, hdel⟩ := h
  apply find?_of_unique _ _ t _ hmem (by simp [hid, horg, hdel])
  intro r hr hp
  simp only [Bool.and_eq_true, beq_iff_eq] at hp
  exact huniq r hr hp.1.1

/-- All three mutating routes reject a non-assignee caller with Forbidden
before touching any state. -/
theorem routes_forbidden (db : Db) (now : Nat) (org user : String) (task_id : Nat)
    (t : SharedTask) (h : TaskInDb db org task_id t)
    (hforb : t.assignee_user_id ≠ some user)
    (up : UpdateSharedTaskRequest) (ap : AssignSharedTaskRequest)
    (dp : Option DeleteSharedTaskRequest) :
    update_shared_task db now org user task_id up =
      (db, .err 403 "only the assignee can modify this task") ∧
    assign_shared_task db now org user task_id ap =
      (db, .err 403 "only the assignee can modify this task") ∧
    delete_shared_task db now org user task_id dp =
      (db, .err 403 "only the assignee can modify this task") := by
  have hfind := find_by_id_some db org task_id t h
  have hbeq : (t.assignee_user_id == some user) = false := by
    simp [hforb]
  refine ⟨?_, ?_, ?_⟩ <;>
    simp [update_shared_task, assign_shared_task, delete_shared_task, hfind, hbeq,
      task_error_response]

/-- All three mutating routes answer 404 when no live row matches id+org. -/
theorem routes_notfound (db : Db) (now : Nat) (org user : String) (task_id : Nat)
    (hfind : find_by_id db org task_id = none)
    (up : UpdateSharedTaskRequest) (ap : AssignSharedTaskRequest)
    (dp : Option DeleteSharedTaskRequest) :
    update_shared_task db now org user task_id up = (db, .err 404 "task not found") ∧
    assign_shared_task db now org user task_id ap = (db, .err 404 "task not found") ∧
    delete_shared_task db now org user task_id dp = (db, .err 404 "task not found") := by
  refine ⟨?_, ?_, ?_⟩ <;>
    simp [update_shared_task, assign_shared_task, delete_shared_task, hfind,
      task_error_response]

/-- C5: a PATCH, assign or DELETE whose acting user is not the task's current
assignee yields HTTP 403 Forbidden with no state mutation: the returned
database (tasks, projects, activity, counters) is exactly the input
database, so the task row is unchanged and no activity row is inserted. -/
theorem c5_assignee_only_mutation (db : Db) (now : Nat) (org user : String)
    (task_id : Nat) (t : SharedTask) (h : TaskInDb db org task_id t)
    (hforb : t.assignee_user_id ≠ some user)
    (up : UpdateSharedTaskRequest) (ap : AssignSharedTaskRequest)
    (dp : Option DeleteSharedTaskRequest) :
    update_shared_task db now org user task_id up =
      (db, .err 403 "only the assignee can modify this task") ∧
    assign_shared_task db now org user task_id ap =
      (db, .err 403 "only the assignee can modify this task") ∧
    delete_shared_task db now org user task_id dp =
      (db, .err 403 "only the assignee can modify this task") :=
  routes_forbidden db now org user task_id t h hforb up ap dp

def c5Task : SharedTask :=
  ⟨1, "org1", 1, some "alice", some "alice", none, "title", none, .todo, 1, none,
    none, 0, 0⟩

def c5Db : Db := { tasks := [c5Task], projects := [], activity := [], counters := [] }

theorem c5_assignee_only_mutation_witness :
    update_shared_task c5Db 1 "org1" "bob" 1 ⟨none, none, none, none⟩ =
      (c5Db, .err 403 "only the assignee can modify this task") ∧
    assign_shared_task c5Db 1 "org1" "bob" 1 ⟨none, none⟩ =
      (c5Db, .err 403 "only the assignee can modify this task") ∧
    delete_shared_task c5Db 1 "org1" "bob" 1 none =
      (c5Db, .err 403 "only the assignee can modify this task") :=
  c5_assignee_only_mutation c5Db 1 "org1" "bob" 1 c5Task
    (by refine ⟨?_, ?_, ?_, ?_, ?_⟩ <;> decide) (by decide)
    ⟨none, none, none, none⟩ ⟨none, none⟩ none

/-- C4: an update whose supplied version differs from the task's current
version returns HTTP 409 with message "task version mismatch" and leaves the
database untouched: no activity row, no task-row change, MAX(activity.seq)
unchanged. -/
theorem c4_version_mismatch_conflict (db : Db) (now : Nat) (org user : String)
    (task_id : Nat) (t : SharedTask) (payload : UpdateSharedTaskRequest) (v : Int)
    (h : TaskInDb db org task_id t)
    (hassignee : t.assignee_user_id = some user)
    (htext : ensure_text_size (payload.title.getD t.title)
        (payload.description.or t.description) = .ok ())
    (hver : payload.version = some v) (hv : v ≠ t.version) :
    update_shared_task db now org user task_id payload =
      (db, .err 409 "task version mismatch") := by
  have hfind := find_by_id_some db org task_id t h
  have hnone : db.tasks.find? (fun r =>
      updateMatches org task_id
        ⟨payload.title, payload.description, payload.status, payload.version, user⟩ r) =
      none := by
    rw [List.find?_eq_none]
    intro r hr
    simp only [updateMatches, Bool.and_eq_true, beq_iff_eq, hver]
    rintro ⟨⟨⟨⟨hid, -⟩, hvv⟩, -⟩, -⟩
    have hrt : r = t := h.1 r hr hid
    subst hrt
    simp only [Option.getD_some] at hvv
    exact hv hvv
  simp [update_shared_task, hfind, hassignee, htext, repoUpdate, hnone,
    task_error_response]

def c4Payload : UpdateSharedTaskRequest := ⟨some "new title", none, none, some 2⟩

theorem c4_version_mismatch_conflict_witness :
    update_shared_task c5Db 1 "org1" "alice" 1 c4Payload =
      (c5Db, .err 409 "task version mismatch") :=
  c4_version_mismatch_conflict c5Db 1 "org1" "alice" 1 c5Task c4Payload 2
    (by refine ⟨?_, ?_, ?_, ?_, ?_⟩ <;> decide) rfl rfl rfl (by decide)

/-- C7 counterexample: the response to a non-assignee caller is NOT the same
for a missing task and for an existing foreign task.  In c5Db, task 1 exists
and is assigned to alice while task 2 does not exist; caller bob receives 403
for task 1 but 404 for task 2, on all three mutating routes, so the response
reveals whether the task exists. -/
theorem c7_counterexample :
    (update_shared_task c5Db 1 "org1" "bob" 1 ⟨none, none, none, none⟩).2 ≠
      (update_shared_task c5Db 1 "org1" "bob" 2 ⟨none, none, none, none⟩).2 ∧
    (assign_shared_task c5Db 1 "org1" "bob" 1 ⟨none, none⟩).2 ≠
      (assign_shared_task c5Db 1 "org1" "bob" 2 ⟨none, none⟩).2 ∧
    (delete_shared_task c5Db 1 "org1" "bob" 1 none).2 ≠
      (delete_shared_task c5Db 1 "org1" "bob" 2 none).2 := by
  refine ⟨?_, ?_, ?_⟩ <;> decide

/-- C7 amended: for a requester who is not the assignee, an existing live
task yields 403 with the Forbidden body while a task id absent from the
organization (or soft-deleted) yields 404 "task not found"; the two responses
differ, so a Forbidden response does reveal that the task exists. -/
theorem c7_forbidden_vs_notfound :
    (∀ db now org user task_id t up ap dp, TaskInDb db org task_id t →
      t.assignee_user_id ≠ some user →
      (update_shared_task db now org user task_id up).2 =
        .err 403 "only the assignee can modify this task" ∧
      (assign_shared_task db now org user task_id ap).2 =
        .err 403 "only the assignee can modify this task" ∧
      (delete_shared_task db now org user task_id dp).2 =
        .err 403 "only the assignee can modify this task") ∧
    (∀ db now org user task_id up ap dp, find_by_id db org task_id = none →
      (update_shared_task db now org user task_id up).2 = .err 404 "task not found" ∧
      (assign_shared_task db now org user task_id ap).2 = .err 404 "task not found" ∧
      (delete_shared_task db now org user task_id dp).2 = .err 404 "task not found") ∧
    HttpResponse.err 403 "only the assignee can modify this task" ≠
      HttpResponse.err 404 "task not found" := by
  refine ⟨?_, ?_, by decide⟩
  · intro db now org user task_id t up ap dp h hforb
    obtain ⟨h1, h2, h3⟩ := routes_forbidden db now org user task_id t h hforb up ap dp
    exact ⟨by rw [h1], by rw [h2], by rw [h3]⟩
  · intro db now org user task_id up ap dp hfind
    obtain ⟨h1, h2, h3⟩ := routes_notfound db now org user task_id hfind up ap dp
    exact ⟨by rw [h1], by rw [h2], by rw [h3]⟩

theorem c7_forbidden_vs_notfound_witness :
    (update_shared_task c5Db 1 "org1" "bob" 1 ⟨none, none, none, none⟩).2 =
      .err 403 "only the assignee can modify this task" ∧
    (update_shared_task c5Db 1 "org1" "bob" 2 ⟨none, none, none, none⟩).2 =
      .err 404 "task not found" :=
  ⟨(c7_forbidden_vs_notfound.1 c5Db 1 "org1" "bob" 1 c5Task
      ⟨none, none, none, none⟩ ⟨none, none⟩ none
      (by refine ⟨?_, ?_, ?_, ?_, ?_⟩ <;> decide) (by decide)).1,
   (c7_forbidden_vs_notfound.2.1 c5Db 1 "org1" "bob" 2
      ⟨none, none, none, none⟩ ⟨none, none⟩ none (by decide)).1⟩

/-! ## C8: text-size guard -/

/-- A string of n copies of a character has byte length n * utf8Size. -/
theorem utf8ByteSize_replicate (n : Nat) (c : Char) :
    (String.mk (List.replicate n c)).utf8ByteSize = n * c.utf8Size := by
  induction n with
  | zero =>
      show (String.mk []).utf8ByteSize = 0 * c.utf8Size
      rw [String.utf8ByteSize_mk, String.utf8Len_nil, Nat.zero_mul]
  | succ m ih =>
      simp only [String.utf8ByteSize_mk] at ih ⊢
      simp only [List.replicate_succ, String.utf8Len_cons, ih]
      ring

def repChar (n : Nat) : String := String.mk (List.replicate n 'a')

theorem repChar_size (n : Nat) : (repChar n).utf8ByteSize = n := by
  have h := utf8ByteSize_replicate n 'a'
  have ha : Char.utf8Size 'a' = 1 := rfl
  unfold repChar
  rw [h, ha, Nat.mul_one]

/-- C8: ensure_text_size succeeds iff the byte lengths of title plus
description (0 when absent) total at most 50 * 1024 (so exactly 50 KiB is
accepted); a violation is PayloadTooLarge, which the route layer maps to
HTTP 400, and both the create and the update transaction roll back, leaving
the database unchanged. -/
theorem c8_text_size_guard :
    (∀ title description, ensure_text_size title description = .ok () ↔
      title.utf8ByteSize + ((description.map String.utf8ByteSize).getD 0) ≤ 50 * 1024) ∧
    (task_error_response .payloadTooLarge =
      .err 400 "title and description cannot exceed 50 KiB combined") ∧
    (∀ db now org data tid pid,
      50 * 1024 < data.title.utf8ByteSize +
        ((data.description.map String.utf8ByteSize).getD 0) →
      repoCreate db now org data tid pid = (db, .error .payloadTooLarge)) ∧
    (∀ db now org task_id data t0,
      db.tasks.find? (fun r => updateMatches org task_id data r) = some t0 →
      50 * 1024 < (updatedRow data now t0).title.utf8ByteSize +
        (((updatedRow data now t0).description.map String.utf8ByteSize).getD 0) →
      repoUpdate db now org task_id data = (db, .error .payloadTooLarge)) := by
  refine ⟨?_, rfl, ?_, ?_⟩
  · intro title description
    simp only [ensure_text_size, MAX_SHARED_TASK_TEXT_BYTES]
    split
    · constructor
      · intro h
        cases h
      · omega
    · simp
      omega
  · intro db now org data tid pid hbig
    have he : ensure_text_size data.title data.description = .error .payloadTooLarge := by
      simp only [ensure_text_size, MAX_SHARED_TASK_TEXT_BYTES]
      split
      · rfl
      · omega
    simp [repoCreate, he]
  · intro db now org task_id data t0 hfind hbig
    have he : ensure_text_size (updatedRow data now t0).title
        (updatedRow data now t0).description = .error .payloadTooLarge := by
      simp only [ensure_text_size, MAX_SHARED_TASK_TEXT_BYTES]
      split
      · rfl
      · omega
    simp [repoUpdate, hfind, he]

def c8BigData : CreateSharedTaskData :=
  ⟨⟨7, "owner", "repo"⟩, repChar 51201, none, "alice", none⟩

theorem c8_text_size_guard_witness :
    ensure_text_size (repChar 51200) none = .ok () ∧
    repoCreate emptyDb 0 "org1" c8BigData 1 2 = (emptyDb, .error .payloadTooLarge) :=
  ⟨(c8_text_size_guard.1 (repChar 51200) none).mpr
      (by rw [repChar_size]; simp),
   c8_text_size_guard.2.2.1 emptyDb 0 "org1" c8BigData 1 2
      (by have h1 : c8BigData.title = repChar 51201 := rfl
          have h2 : c8BigData.description = none := rfl
          rw [h1, h2, repChar_size]
          simp)⟩

/-! ## C10: update frame conditions -/

theorem insert_activity_tasks (db : Db) (task : SharedTask) (et : String) :
    (insert_activity db task et).tasks = db.tasks := rfl

/-- C10: in the update SET clause every unset request field keeps the old
column via COALESCE; only title, description, status, version and updated_at
can change; description becomes the request value when set and the old value
otherwise, so a non-null description can never become NULL through update;
and a successful repository update rewrites exactly the matching rows of the
task table with that SET clause. -/
theorem c10_update_frame :
    (∀ data now (t : SharedTask),
      (data.title = none → (updatedRow data now t).title = t.title) ∧
      (data.description = none → (updatedRow data now t).description = t.description) ∧
      (data.status = none → (updatedRow data now t).status = t.status) ∧
      (updatedRow data now t).description = data.description.or t.description ∧
      (updatedRow data now t).id = t.id ∧
      (updatedRow data now t).organization_id = t.organization_id ∧
      (updatedRow data now t).project_id = t.project_id ∧
      (updatedRow data now t).creator_user_id = t.creator_user_id ∧
      (updatedRow data now t).assignee_user_id = t.assignee_user_id ∧
      (updatedRow data now t).deleted_by_user_id = t.deleted_by_user_id ∧
      (updatedRow data now t).deleted_at = t.deleted_at ∧
      (updatedRow data now t).shared_at = t.shared_at ∧
      (updatedRow data now t).created_at = t.created_at ∧
      (updatedRow data now t).version = t.version + 1 ∧
      (updatedRow data now t).updated_at = now) ∧
    (∀ data now (t : SharedTask), t.description.isSome = true →
      ((updatedRow data now t).description).isSome = true) ∧
    (∀ db now org task_id data db' t',
      repoUpdate db now org task_id data = (db', .ok t') →
      db'.tasks = db.tasks.map (fun r =>
        if updateMatches org task_id data r then updatedRow data now r else r) ∧
      ∃ t0, db.tasks.find? (fun r => updateMatches org task_id data r) = some t0 ∧
        t' = updatedRow data now t0) := by
  refine ⟨?_, ?_, ?_⟩
  · intro data now t
    refine ⟨?_, ?_, ?_, rfl, rfl, rfl, rfl, rfl, rfl, rfl, rfl, rfl, rfl, rfl, rfl⟩
    all_goals intro h; simp [updatedRow, h]
  · intro data now t h
    cases hd : data.description with
    | none => simpa [updatedRow, Option.or, hd] using h
    | some d => simp [updatedRow, Option.or, hd]
  · intro db now org task_id data db' t' h
    unfold repoUpdate at h
    split at h
    · simp at h
    · rename_i t0 hfind
      split at h
      · simp at h
      · split at h
        · simp at h
        · simp only [Prod.mk.injEq, Except.ok.injEq] at h
          obtain ⟨hdb, ht⟩ := h
          subst hdb
          subst ht
          exact ⟨rfl, t0, hfind, rfl⟩

def c10Project : Project := ⟨1, "org1", ⟨7, "owner", "repo"⟩⟩

def c10Db : Db :=
  { tasks := [c5Task], projects := [c10Project], activity := [], counters := [] }

def c10Data : UpdateSharedTaskData := ⟨none, some "desc", none, some 1, "alice"⟩

def c10TaskD : SharedTask := { c5Task with description := some "old" }

theorem c10_update_frame_witness :
    (updatedRow c10Data 2 c5Task).title = c5Task.title ∧
    ((updatedRow c10Data 2 c10TaskD).description).isSome = true ∧
    (repoUpdate c10Db 2 "org1" 1 c10Data).1.tasks =
      c10Db.tasks.map (fun r =>
        if updateMatches "org1" 1 c10Data r then updatedRow c10Data 2 r else r) :=
  ⟨((c10_update_frame.1 c10Data 2 c5Task).1) rfl,
   c10_update_frame.2.1 c10Data 2 c10TaskD rfl,
   ((c10_update_frame.2.2 c10Db 2 "org1" 1 c10Data
      (repoUpdate c10Db 2 "org1" 1 c10Data).1 (updatedRow c10Data 2 c5Task) rfl).1)⟩

/-! ## Activity broker subscriber filter (crates/remote/src/activity/broker.rs) -/

/-- A broadcast event as seen on a shard; only seq and organization_id play a
role in the subscriber filter. -/
structure BrokerEvent where
  seq : Int
  organization_id : String
deriving DecidableEq, Repr

/-- One item received from a shard's broadcast channel: an event, or a
BroadcastStreamRecvError::Lagged(skipped) signal produced by channel
overflow. -/
inductive ShardItem
  | ok (event : BrokerEvent)
  | lagged (skipped : Nat)
deriving DecidableEq, Repr

/-- The filter_map closure inside ActivityBroker::subscribe: keep Ok events
of the subscriber's organization, drop Ok events of other organizations, and
pass every Err (Lagged) through. -/
def subscribeFilterItem (org : String) : ShardItem → Option ShardItem
  | .ok event => if event.organization_id = org then some (.ok event) else none
  | .lagged n => some (.lagged n)

/-- ActivityBroker::subscribe applied to the sequence of items its shard's
broadcast channel delivers to this receiver. -/
def subscribe_filter (org : String) (shard : List ShardItem) : List ShardItem :=
  shard.filterMap (subscribeFilterItem org)

/-- The Lagged signals of a stream, in order with multiplicity. -/
def laggedSignals (items : List ShardItem) : List Nat :=
  items.filterMap (fun item => match item with
    | .lagged n => some n
    | .ok _ => none)

/-! ## WebSocket session (crates/remote/src/ws/session.rs) -/

/-- An item of the org-filtered activity stream as consumed by the session
loop: a delivered event (after the cross-org assert only its seq matters) or
a Lagged signal. -/
inductive StreamItem
  | ok (seq : Int)
  | lagged
deriving DecidableEq, Repr

/-- A frame written to the websocket: an activity message (ServerMessage::
Activity, identified by its seq) or an error frame (ServerMessage::Error). -/
inductive OutFrame
  | activity (seq : Int)
  | errorMsg (message : String)
deriving DecidableEq, Repr

/-- The seqs of the activity frames of an output trace, in order. -/
def activitySeqs (out : List OutFrame) : List Int :=
  out.filterMap (fun f => match f with
    | .activity s => some s
    | .errorMsg _ => none)

def backlogDropped : String := "activity backlog dropped"

/-- Modelled from the spec: utils::ws::WS_BULK_SYNC_THRESHOLD (the utils ws
module is not among the provided sources; spec section 4.4 gives the default
100). -/
def WS_BULK_SYNC_THRESHOLD : Int := 100

/-- Modelled from the spec: ActivityRepository::fetch_since(org, after,
limit) (crates/remote/src/db/activity.rs is not among the provided sources;
spec sections 2, 4.4 and 8 give its contract): the events with seq strictly
above the cursor (all events when no cursor was supplied), in ascending seq
order, at most limit rows.  log is one organization's committed activity seq
column in ascending order. -/
def fetch_since (log : List Int) (after : Option Int) (limit : Int) : List Int :=
  (log.filter (fun s => decide (after.getD 0 < s))).take limit.toNat

/-- The errors of catch_up_from_db that the pure embedding can produce:
Stale (an expected row is missing from the database).  Send and Database wrap
external I/O failures, which only truncate the trace. -/
inductive CatchUpError
  | stale
deriving DecidableEq, Repr

/-- The inner for-loop of catch_up_from_db in ws/session.rs: send each
fetched event, advance the cursor to its seq, and return early once the
cursor reaches target_seq.  Returns (emitted seqs, final cursor, whether the
early return fired). -/
def sendEvents (target : Int) : List Int → Int → List Int × Int × Bool
  | [], cursor => ([], cursor, false)
  | s :: rest, _ =>
    if s ≥ target then ([s], s, true)
    else
      match sendEvents target rest s with
      | (sent, c, isdone) => (s :: sent, c, isdone)

/-- The while-loop of catch_up_from_db.  fuel bounds the number of outer
iterations: each iteration advances the cursor by at least one because
fetch_since returns seqs strictly above it, so target - cursor iterations
always suffice and the fuel = 0 branch (returning Ok like the loop falling
through at remaining <= 0) is never reached from catch_up_from_db. -/
def catchUpGo (log : List Int) (target limit : Int) :
    Nat → Int → List Int × Except CatchUpError Int
  | 0, cursor => ([], .ok cursor)
  | fuel + 1, cursor =>
    if target - cursor ≤ 0 then ([], .ok cursor)
    else
      if (fetch_since log (some cursor) (min (target - cursor) limit)).isEmpty
      then ([], .error .stale)
      else
        match sendEvents target
            (fetch_since log (some cursor) (min (target - cursor) limit)) cursor with
        | (sent, c, true) => (sent, .ok c)
        | (sent, c, false) =>
          match catchUpGo log target limit fuel c with
          | (sent2, r) => (sent ++ sent2, r)

/-- catch_up_from_db from ws/session.rs: page fetch_since in chunks of
min(remaining, batch_size.max 1) until a row with seq >= target_seq has been
sent; an empty page is Stale. -/
def catch_up_from_db (log : List Int) (last_seq target_seq batch_size : Int) :
    List Int × Except CatchUpError Int :=
  if target_seq ≤ last_seq then ([], .ok last_seq)
  else catchUpGo log target_seq (max batch_size 1) (target_seq - last_seq).toNat last_seq

/-- activity_stream_catch_up from ws/session.rs, applied to the first item of
the freshly created broker subscription (the function drops the session's
current stream, subscribes anew and awaits one item to learn target_seq).
A stream end or a Lagged first item sends "activity backlog dropped" and
closes; target_seq <= last_seq re-enters Live with nothing sent; a gap larger
than bulk_limit.max(1) sends "activity backlog dropped" and closes; otherwise
catch_up_from_db pages the database, and Stale also degrades to the error
frame. -/
def gap_recover (log : List Int) (batch bulk last_seq : Int) :
    StreamItem → List OutFrame × Except Unit Int
  | .lagged => ([.errorMsg backlogDropped], .error ())
  | .ok target =>
    if target ≤ last_seq then ([], .ok last_seq)
    else if target - last_seq > max bulk 1 then ([.errorMsg backlogDropped], .error ())
    else
      match catch_up_from_db log last_seq target (max batch 1) with
      | (sent, .ok c) => (sent.map .activity, .ok c)
      | (sent, .error _) => (sent.map .activity ++ [.errorMsg backlogDropped], .error ())

/-- The activity arm of the session select loop in handle (ws/session.rs),
processing the stream items the broker delivers.  A duplicate (seq <=
last_sent) is dropped; seq = last_sent + 1 is sent; a larger seq enters gap
recovery, which consumes the first item of the fresh subscription (an ended
stream yields the error frame and close); a Lagged signal with a baseline
enters the same recovery, and without a baseline sends the error frame and
closes.  The inbound-message and auth-tick select arms can only terminate the
session without emitting activity frames, and socket send failures only
truncate the trace, so they are not modelled. -/
def liveLoop (log : List Int) (batch bulk : Int) :
    Option Int → List StreamItem → List OutFrame
  | _, [] => []
  | none, .ok s :: rest => .activity s :: liveLoop log batch bulk (some s) rest
  | none, .lagged :: _ => [.errorMsg backlogDropped]
  | some p, .ok s :: rest =>
    if s ≤ p then liveLoop log batch bulk (some p) rest
    else if s > p + 1 then
      match rest with
      | [] => [.errorMsg backlogDropped]
      | item :: rest2 =>
        match gap_recover log batch bulk p item with
        | (out, .ok c) => out ++ liveLoop log batch bulk (some c) rest2
        | (out, .error _) => out
    else .activity s :: liveLoop log batch bulk (some s) rest
  | some p, .lagged :: rest =>
    match rest with
    | [] => [.errorMsg backlogDropped]
    | item :: rest2 =>
      match gap_recover log batch bulk p item with
      | (out, .ok c) => out ++ liveLoop log batch bulk (some c) rest2
      | (out, .error _) => out

/-- The whole websocket session from handle (ws/session.rs): the initial
history fetch_since(org, cursor, activity_default_limit) is sent in order
(advancing last_sent_seq), then the select loop runs on the broker stream. -/
def session (log : List Int) (cursor : Option Int) (default_limit batch bulk : Int)
    (items : List StreamItem) : List OutFrame :=
  (fetch_since log cursor default_limit).map .activity ++
    liveLoop log batch bulk
      ((fetch_since log cursor default_limit).getLast?.or cursor) items

/-- The activity log of an organization with K committed events: by the C1
invariant the committed seqs are exactly 1..K in order. -/
def orgLog (K : Nat) : List Int := seqRun 1 K

/-! ## C9: the broker filter -/

/-- C9: a stream from ActivityBroker::subscribe(org) contains exactly the Ok
events of org from its shard, while every Lagged signal of the shard channel
passes through unchanged (in order and multiplicity); consequently a shard
stream carrying only another organization's events still delivers its Lagged
signal to the subscriber, so a Lag (forcing catch-up or bulk sync) can be
triggered entirely by a co-sharded tenant. -/
theorem c9_subscribe_filters_org_passes_lag :
    (∀ org shard e, ShardItem.ok e ∈ subscribe_filter org shard →
      e.organization_id = org ∧ ShardItem.ok e ∈ shard) ∧
    (∀ org shard e, ShardItem.ok e ∈ shard → e.organization_id = org →
      ShardItem.ok e ∈ subscribe_filter org shard) ∧
    (∀ org shard, laggedSignals (subscribe_filter org shard) = laggedSignals shard) ∧
    (∀ e, ShardItem.ok e ∈ ([.ok ⟨1, "org-b"⟩, .lagged 3] : List ShardItem) →
      e.organization_id ≠ "org-a") ∧
    subscribe_filter "org-a" [.ok ⟨1, "org-b"⟩, .lagged 3] = [.lagged 3] := by
  refine ⟨?_, ?_, ?_, ?_, by decide⟩
  · intro org shard e hmem
    simp only [subscribe_filter, List.mem_filterMap] at hmem
    obtain ⟨item, hitem, hsome⟩ := hmem
    cases item with
    | ok ev =>
        simp only [subscribeFilterItem] at hsome
        split at hsome
        · simp only [Option.some.injEq, ShardItem.ok.injEq] at hsome
          subst hsome
          exact ⟨by assumption, hitem⟩
        · cases hsome
    | lagged n =>
        simp only [subscribeFilterItem, Option.some.injEq] at hsome
        cases hsome
  · intro org shard e hmem horg
    simp only [subscribe_filter, List.mem_filterMap]
    exact ⟨.ok e, hmem, by simp [subscribeFilterItem, horg]⟩
  · intro org shard
    induction shard with
    | nil => rfl
    | cons item rest ih =>
        cases item with
        | ok ev =>
            by_cases h : ev.organization_id = org <;>
              simp [subscribe_filter, laggedSignals, subscribeFilterItem, h] at ih ⊢ <;>
              exact ih
        | lagged n =>
            simp [subscribe_filter, laggedSignals, subscribeFilterItem] at ih ⊢
            exact ih
  · intro e hmem
    simp only [List.mem_cons, List.not_mem_nil, or_false] at hmem
    rcases hmem with h | h
    · injection h with he
      subst he
      decide
    · exact ShardItem.noConfusion h

theorem c9_subscribe_filters_org_passes_lag_witness :
    ShardItem.ok ⟨4, "org-a"⟩ ∈
      subscribe_filter "org-a" [.ok ⟨4, "org-a"⟩, .ok ⟨1, "org-b"⟩, .lagged 3] ∧
    laggedSignals (subscribe_filter "org-a"
      [.ok ⟨4, "org-a"⟩, .ok ⟨1, "org-b"⟩, .lagged 3]) =
      laggedSignals [.ok ⟨4, "org-a"⟩, .ok ⟨1, "org-b"⟩, .lagged 3] :=
  ⟨c9_subscribe_filters_org_passes_lag.2.1 "org-a"
      [.ok ⟨4, "org-a"⟩, .ok ⟨1, "org-b"⟩, .lagged 3] ⟨4, "org-a"⟩
      (by decide) rfl,
   c9_subscribe_filters_org_passes_lag.2.2.1 "org-a"
      [.ok ⟨4, "org-a"⟩, .ok ⟨1, "org-b"⟩, .lagged 3]⟩

/-! ## Session lemmas -/

theorem seqRun_take (s : Int) (n m : Nat) : (seqRun s n).take m = seqRun s (min m n) := by
  simp only [seqRun, ← List.map_take, List.take_range]

theorem seqRun_filter_gt (K : Nat) (c : Int) (hc : 0 ≤ c) :
    (seqRun 1 K).filter (fun x => decide (c < x)) = seqRun (c + 1) (K - c.toNat) := by
  induction K with
  | zero => simp [seqRun]
  | succ n ih =>
      rw [seqRun_succ_last, List.filter_append, ih]
      by_cases h : c < 1 + (n : Int)
      · have h1 : (List.filter (fun x => decide (c < x)) [1 + (n : Int)]) = [1 + (n : Int)] := by
          simp [h]
        rw [h1]
        have h2 : n + 1 - c.toNat = (n - c.toNat) + 1 := by omega
        rw [h2, seqRun_succ_last]
        congr 2
        omega
      · have h1 : (List.filter (fun x => decide (c < x)) [1 + (n : Int)]) = [] := by
          simp [h]
        rw [h1, List.append_nil]
        congr 1
        omega

theorem fetch_since_orgLog (K : Nat) (c lim : Int) (hc : 0 ≤ c) :
    fetch_since (orgLog K) (some c) lim = seqRun (c + 1) (min lim.toNat (K - c.toNat)) := by
  simp only [fetch_since, orgLog, Option.getD_some]
  rw [seqRun_filter_gt K c hc, seqRun_take]

theorem sendEvents_seqRun (target : Int) (e : Nat) :
    ∀ cur, cur < target →
    sendEvents target (seqRun (cur + 1) e) cur =
      if target ≤ cur + e
      then (seqRun (cur + 1) (target - cur).toNat, target, true)
      else (seqRun (cur + 1) e, cur + e, false) := by
  induction e with
  | zero =>
      intro cur hlt
      rw [if_neg (by omega)]
      simp [seqRun, sendEvents]
  | succ m ih =>
      intro cur hlt
      rw [seqRun_succ_cons]
      by_cases hfirst : cur + 1 ≥ target
      · have htg : target = cur + 1 := by omega
        rw [if_pos (by omega)]
        simp only [sendEvents, if_pos hfirst]
        subst htg
        have h1 : (cur + 1 - cur).toNat = 1 := by omega
        rw [h1]
        simp [seqRun, List.range_succ]
      · have hc2 : cur + 1 < target := by omega
        have ihc := ih (cur + 1) hc2
        simp only [sendEvents, if_neg hfirst]
        have harg : cur + 1 + 1 = (cur + 1) + 1 := rfl
        rw [harg, ihc]
        by_cases hreach : target ≤ cur + 1 + m
        · rw [if_pos (by omega), if_pos (by omega)]
          have hsplit : (target - cur).toNat = (target - (cur + 1)).toNat + 1 := by omega
          rw [hsplit, seqRun_succ_cons]
        · rw [if_neg (by omega), if_neg (by omega)]
          rw [← seqRun_succ_cons]
          simp only [Prod.mk.injEq, true_and, and_true]
          push_cast
          ring

/-- Shape of the catch-up loop output on a gapless log: whatever happens, the
emitted seqs are a contiguous run starting right after the cursor, and a
successful result returns exactly the last value emitted (the cursor when
nothing was emitted). -/
theorem catchUpGo_run (K : Nat) (target limit : Int) :
    ∀ (fuel : Nat) (cur : Int), 0 ≤ cur →
    ∃ m, (catchUpGo (orgLog K) target limit fuel cur).1 = seqRun (cur + 1) m ∧
      ∀ c, (catchUpGo (orgLog K) target limit fuel cur).2 = .ok c → c = cur + m := by
  intro fuel
  induction fuel with
  | zero =>
      intro cur hc
      refine ⟨0, rfl, ?_⟩
      intro c h
      simp only [catchUpGo, Except.ok.injEq] at h
      omega
  | succ f ih =>
      intro cur hc
      by_cases hstop : target - cur ≤ 0
      · refine ⟨0, ?_, ?_⟩
        · simp [catchUpGo, hstop, seqRun]
        · intro c h
          simp only [catchUpGo, if_pos hstop, Except.ok.injEq] at h
          omega
      · have hlt : cur < target := by omega
        have hfetch := fetch_since_orgLog K cur (min (target - cur) limit) hc
        rcases he : min (min (target - cur) limit).toNat (K - cur.toNat) with _ | E
        · refine ⟨0, ?_, ?_⟩ <;>
            simp [catchUpGo, hstop, hfetch, he, seqRun]
        · have hne : (seqRun (cur + 1) (E + 1)).isEmpty = false := by
            rw [seqRun_succ_cons]
            rfl
          have hsend := sendEvents_seqRun target (E + 1) cur hlt
          by_cases hreach : target ≤ cur + (E + 1 : Nat)
          · refine ⟨(target - cur).toNat, ?_, ?_⟩ <;>
              simp only [catchUpGo, if_neg hstop, hfetch, he, hne, Bool.false_eq_true,
                if_false, hsend, if_pos hreach]
            intro c h
            simp only [Except.ok.injEq] at h
            omega
          · obtain ⟨m2, h1, h2⟩ := ih (cur + (E + 1 : Nat)) (by omega)
            refine ⟨(E + 1) + m2, ?_, ?_⟩ <;>
              simp only [catchUpGo, if_neg hstop, hfetch, he, hne, Bool.false_eq_true,
                if_false, hsend, if_neg hreach]
            · rw [h1, show cur + (E + 1 : Nat) + 1 = (cur + 1) + (E + 1 : Nat) from by
                push_cast; ring]
              exact seqRun_append (cur + 1) (E + 1) m2
            · intro c h
              have := h2 c h
              omega

/-- When the target row exists in the gapless log, the catch-up loop reaches
it exactly: it emits cursor+1, ..., target and returns Ok(target). -/
theorem catchUpGo_exact (K : Nat) (target limit : Int) (hK : target ≤ K) (hlim : 1 ≤ limit) :
    ∀ (fuel : Nat) (cur : Int), 0 ≤ cur → cur < target → (target - cur).toNat ≤ fuel →
    catchUpGo (orgLog K) target limit fuel cur =
      (seqRun (cur + 1) (target - cur).toNat, .ok target) := by
  intro fuel
  induction fuel with
  | zero =>
      intro cur hc hlt hf
      omega
  | succ f ih =>
      intro cur hc hlt hf
      have hstop : ¬ target - cur ≤ 0 := by omega
      have hfetch := fetch_since_orgLog K cur (min (target - cur) limit) hc
      have hE : 1 ≤ min (min (target - cur) limit).toNat (K - cur.toNat) := by omega
      obtain ⟨E, he⟩ : ∃ E, min (min (target - cur) limit).toNat (K - cur.toNat) = E + 1 := by
        refine ⟨min (min (target - cur) limit).toNat (K - cur.toNat) - 1, ?_⟩
        omega
      have hne : (seqRun (cur + 1) (E + 1)).isEmpty = false := by
        rw [seqRun_succ_cons]
        rfl
      have hsend := sendEvents_seqRun target (E + 1) cur hlt
      by_cases hreach : target ≤ cur + ((E + 1 : Nat) : Int)
      · simp only [catchUpGo, if_neg hstop, hfetch, he, hne, Bool.false_eq_true,
          if_false, hsend, if_pos hreach]
      · have hih := ih (cur + ((E + 1 : Nat) : Int)) (by omega) (by omega) (by omega)
        simp only [catchUpGo, if_neg hstop, hfetch, he, hne, Bool.false_eq_true,
          if_false, hsend, if_neg hreach, hih]
        rw [show cur + ((E + 1 : Nat) : Int) + 1 = (cur + 1) + ((E + 1 : Nat) : Int) from by
          push_cast; ring]
        rw [seqRun_append]
        congr 2
        omega

theorem catch_up_from_db_run (K : Nat) (p target batch : Int) (hp : 0 ≤ p) :
    ∃ m, (catch_up_from_db (orgLog K) p target batch).1 = seqRun (p + 1) m ∧
      ∀ c, (catch_up_from_db (orgLog K) p target batch).2 = .ok c → c = p + m := by
  unfold catch_up_from_db
  split
  · refine ⟨0, rfl, ?_⟩
    intro c h
    simp only [Except.ok.injEq] at h
    omega
  · exact catchUpGo_run K target (max batch 1) (target - p).toNat p hp

theorem catch_up_from_db_exact (K : Nat) (p target batch : Int) (hp : 0 ≤ p)
    (hlt : p < target) (hK : target ≤ K) :
    catch_up_from_db (orgLog K) p target batch =
      (seqRun (p + 1) (target - p).toNat, .ok target) := by
  unfold catch_up_from_db
  rw [if_neg (by omega)]
  exact catchUpGo_exact K target (max batch 1) hK (le_max_right batch 1)
    (target - p).toNat p hp hlt le_rfl

theorem activitySeqs_append (a b : List OutFrame) :
    activitySeqs (a ++ b) = activitySeqs a ++ activitySeqs b := by
  simp [activitySeqs]

theorem activitySeqs_map_activity (l : List Int) :
    activitySeqs (l.map .activity) = l := by
  induction l with
  | nil => rfl
  | cons a rest ih =>
      show a :: activitySeqs (rest.map .activity) = a :: rest
      rw [ih]

theorem gap_recover_run (K : Nat) (batch bulk p : Int) (hp : 0 ≤ p) (item : StreamItem) :
    ∃ m, activitySeqs (gap_recover (orgLog K) batch bulk p item).1 = seqRun (p + 1) m ∧
      ∀ c, (gap_recover (orgLog K) batch bulk p item).2 = .ok c → c = p + m := by
  cases item with
  | lagged =>
      refine ⟨0, rfl, ?_⟩
      intro c h
      cases h
  | ok t =>
      by_cases h1c : t ≤ p
      · have hval : gap_recover (orgLog K) batch bulk p (.ok t) = ([], .ok p) := by
          simp only [gap_recover]
          rw [if_pos h1c]
        refine ⟨0, by simp [hval, activitySeqs, seqRun], ?_⟩
        intro c h
        rw [hval] at h
        cases h
        simp
      · by_cases h2c : t - p > max bulk 1
        · have hval : gap_recover (orgLog K) batch bulk p (.ok t) =
              ([.errorMsg backlogDropped], .error ()) := by
            simp only [gap_recover]
            rw [if_neg h1c, if_pos h2c]
          refine ⟨0, by simp [hval, activitySeqs, seqRun], ?_⟩
          intro c h
          rw [hval] at h
          cases h
        · obtain ⟨m, hm1, hm2⟩ := catch_up_from_db_run K p t (max batch 1) hp
          rcases hcu : catch_up_from_db (orgLog K) p t (max batch 1) with ⟨sent, r⟩
          rw [hcu] at hm1 hm2
          cases r with
          | ok c =>
              have hval : gap_recover (orgLog K) batch bulk p (.ok t) =
                  (sent.map .activity, .ok c) := by
                simp only [gap_recover]
                rw [if_neg h1c, if_neg h2c, hcu]
              refine ⟨m, ?_, ?_⟩
              · rw [hval, activitySeqs_map_activity]
                exact hm1
              · intro c2 h
                rw [hval] at h
                simp only [Except.ok.injEq] at h
                subst h
                exact hm2 c rfl
          | error e =>
              have hval : gap_recover (orgLog K) batch bulk p (.ok t) =
                  (sent.map .activity ++ [.errorMsg backlogDropped], .error ()) := by
                simp only [gap_recover]
                rw [if_neg h1c, if_neg h2c, hcu]
              refine ⟨m, ?_, ?_⟩
              · rw [hval, activitySeqs_append, activitySeqs_map_activity]
                simpa [activitySeqs] using hm1
              · intro c h
                rw [hval] at h
                cases h

theorem liveLoop_nil (log : List Int) (batch bulk : Int) (last : Option Int) :
    liveLoop log batch bulk last [] = [] := by
  cases last <;> rfl

theorem liveLoop_drop (log : List Int) (batch bulk p s : Int) (rest : List StreamItem)
    (h : s ≤ p) :
    liveLoop log batch bulk (some p) (.ok s :: rest) =
      liveLoop log batch bulk (some p) rest := by
  rw [liveLoop.eq_def]
  simp [h]

theorem liveLoop_send (log : List Int) (batch bulk p s : Int) (rest : List StreamItem)
    (h1 : ¬ s ≤ p) (h2 : ¬ s > p + 1) :
    liveLoop log batch bulk (some p) (.ok s :: rest) =
      .activity s :: liveLoop log batch bulk (some s) rest := by
  rw [liveLoop.eq_def]
  simp [h1, h2]

theorem liveLoop_gap_end (log : List Int) (batch bulk p s : Int)
    (h1 : ¬ s ≤ p) (h2 : s > p + 1) :
    liveLoop log batch bulk (some p) [.ok s] = [.errorMsg backlogDropped] := by
  simp [liveLoop, h1, h2]

theorem liveLoop_gap (log : List Int) (batch bulk p s : Int) (item : StreamItem)
    (rest2 : List StreamItem) (h1 : ¬ s ≤ p) (h2 : s > p + 1) :
    liveLoop log batch bulk (some p) (.ok s :: item :: rest2) =
      (match gap_recover log batch bulk p item with
       | (out, .ok c) => out ++ liveLoop log batch bulk (some c) rest2
       | (out, .error _) => out) := by
  simp [liveLoop, h1, h2]

theorem liveLoop_lag_end (log : List Int) (batch bulk p : Int) :
    liveLoop log batch bulk (some p) [.lagged] = [.errorMsg backlogDropped] := by
  simp [liveLoop]

theorem liveLoop_lag (log : List Int) (batch bulk p : Int) (item : StreamItem)
    (rest2 : List StreamItem) :
    liveLoop log batch bulk (some p) (.lagged :: item :: rest2) =
      (match gap_recover log batch bulk p item with
       | (out, .ok c) => out ++ liveLoop log batch bulk (some c) rest2
       | (out, .error _) => out) := by
  simp [liveLoop]

theorem liveLoop_none_lag (log : List Int) (batch bulk : Int) (rest : List StreamItem) :
    liveLoop log batch bulk none (.lagged :: rest) = [.errorMsg backlogDropped] := by
  simp [liveLoop]

theorem liveLoop_gap_ok (log : List Int) (batch bulk p s : Int) (item : StreamItem)
    (rest2 : List StreamItem) (out : List OutFrame) (c : Int)
    (h1 : ¬ s ≤ p) (h2 : s > p + 1)
    (hgr : gap_recover log batch bulk p item = (out, .ok c)) :
    liveLoop log batch bulk (some p) (.ok s :: item :: rest2) =
      out ++ liveLoop log batch bulk (some c) rest2 := by
  rw [liveLoop_gap log batch bulk p s item rest2 h1 h2, hgr]

theorem liveLoop_gap_err (log : List Int) (batch bulk p s : Int) (item : StreamItem)
    (rest2 : List StreamItem) (out : List OutFrame)
    (h1 : ¬ s ≤ p) (h2 : s > p + 1)
    (hgr : gap_recover log batch bulk p item = (out, .error ())) :
    liveLoop log batch bulk (some p) (.ok s :: item :: rest2) = out := by
  rw [liveLoop_gap log batch bulk p s item rest2 h1 h2, hgr]

theorem liveLoop_lag_ok (log : List Int) (batch bulk p : Int) (item : StreamItem)
    (rest2 : List StreamItem) (out : List OutFrame) (c : Int)
    (hgr : gap_recover log batch bulk p item = (out, .ok c)) :
    liveLoop log batch bulk (some p) (.lagged :: item :: rest2) =
      out ++ liveLoop log batch bulk (some c) rest2 := by
  rw [liveLoop_lag log batch bulk p item rest2, hgr]

theorem liveLoop_lag_err (log : List Int) (batch bulk p : Int) (item : StreamItem)
    (rest2 : List StreamItem) (out : List OutFrame)
    (hgr : gap_recover log batch bulk p item = (out, .error ())) :
    liveLoop log batch bulk (some p) (.lagged :: item :: rest2) = out := by
  rw [liveLoop_lag log batch bulk p item rest2, hgr]

/-- The live select loop only ever emits the contiguous ascending run of seqs
that directly extends its baseline cursor, whatever the broker stream
delivers. -/
theorem liveLoop_run (K : Nat) (batch bulk : Int) :
    ∀ (last : Option Int) (items : List StreamItem),
    ∀ p, last = some p → 0 ≤ p →
    ∃ n, activitySeqs (liveLoop (orgLog K) batch bulk last items) = seqRun (p + 1) n := by
  intro last items
  induction last, items using liveLoop.induct (orgLog K) batch bulk with
  | case1 x =>
      intro p hp hp0
      refine ⟨0, ?_⟩
      rw [liveLoop_nil]
      rfl
  | case2 s rest ih =>
      intro p hp
      cases hp
  | case3 tail =>
      intro p hp
      cases hp
  | case4 p' s rest hle ih =>
      intro p hp hp0
      cases hp
      rw [liveLoop_drop _ _ _ _ _ _ hle]
      exact ih p' rfl hp0
  | case5 p' s h1 h2 =>
      intro p hp hp0
      cases hp
      rw [liveLoop_gap_end _ _ _ _ _ h1 h2]
      exact ⟨0, rfl⟩
  | case6 p' s h1 h2 item rest2 out c hgr ih =>
      intro p hp hp0
      cases hp
      rw [liveLoop_gap_ok _ _ _ _ _ _ _ _ _ h1 h2 hgr]
      obtain ⟨m, hm1, hm2⟩ := gap_recover_run K batch bulk p' hp0 item
      rw [hgr] at hm1 hm2
      have hc : c = p' + m := hm2 c rfl
      obtain ⟨n2, hn2⟩ := ih c rfl (by omega)
      refine ⟨m + n2, ?_⟩
      rw [activitySeqs_append, hm1, hn2, hc]
      rw [show p' + (m : Int) + 1 = (p' + 1) + (m : Int) from by ring]
      exact seqRun_append (p' + 1) m n2
  | case7 p' s h1 h2 item rest2 out a hgr =>
      intro p hp hp0
      cases hp
      rw [liveLoop_gap_err _ _ _ _ _ _ _ _ h1 h2 hgr]
      obtain ⟨m, hm1, hm2⟩ := gap_recover_run K batch bulk p' hp0 item
      rw [hgr] at hm1
      exact ⟨m, hm1⟩
  | case8 p' s rest h1 h2 ih =>
      intro p hp hp0
      cases hp
      have hs : s = p' + 1 := by omega
      rw [liveLoop_send _ _ _ _ _ _ h1 h2]
      obtain ⟨n, hn⟩ := ih s rfl (by omega)
      refine ⟨n + 1, ?_⟩
      show s :: activitySeqs (liveLoop (orgLog K) batch bulk (some s) rest) =
        seqRun (p' + 1) (n + 1)
      rw [hn, hs, seqRun_succ_cons]
  | case9 p' =>
      intro p hp hp0
      cases hp
      rw [liveLoop_lag_end]
      exact ⟨0, rfl⟩
  | case10 p' item rest2 out c hgr ih =>
      intro p hp hp0
      cases hp
      rw [liveLoop_lag_ok _ _ _ _ _ _ _ _ hgr]
      obtain ⟨m, hm1, hm2⟩ := gap_recover_run K batch bulk p' hp0 item
      rw [hgr] at hm1 hm2
      have hc : c = p' + m := hm2 c rfl
      obtain ⟨n2, hn2⟩ := ih c rfl (by omega)
      refine ⟨m + n2, ?_⟩
      rw [activitySeqs_append, hm1, hn2, hc]
      rw [show p' + (m : Int) + 1 = (p' + 1) + (m : Int) from by ring]
      exact seqRun_append (p' + 1) m n2
  | case11 p' item rest2 out a hgr =>
      intro p hp hp0
      cases hp
      rw [liveLoop_lag_err _ _ _ _ _ _ _ hgr]
      obtain ⟨m, hm1, hm2⟩ := gap_recover_run K batch bulk p' hp0 item
      rw [hgr] at hm1
      exact ⟨m, hm1⟩

/-- C2: over the lifetime of a websocket session opened with client cursor c
against an organization whose committed log is 1..K, the seqs of the activity
frames written to the socket (initial history, live events and catch-up
combined, for any sequence of delivered stream items) form the contiguous
strictly increasing run c+1, c+2, ..., c+n for some n: strictly increasing,
no gaps, no duplicates, starting right after the client-supplied cursor. -/
theorem c2_ws_session_gapless (K : Nat) (c : Int) (hc : 0 ≤ c)
    (default_limit batch bulk : Int) (items : List StreamItem) :
    ∃ n, activitySeqs (session (orgLog K) (some c) default_limit batch bulk items) =
      seqRun (c + 1) n := by
  unfold session
  rw [fetch_since_orgLog K c default_limit hc]
  rcases Nat.eq_zero_or_pos (min default_limit.toNat (K - c.toNat)) with h0 | hpos
  · rw [h0, seqRun_zero]
    simp only [List.map_nil, List.nil_append, List.getLast?_nil, Option.none_or]
    exact liveLoop_run K batch bulk (some c) items c rfl hc
  · rw [seqRun_getLast (c + 1) _ hpos]
    simp only [Option.or_some]
    obtain ⟨n, hn⟩ := liveLoop_run K batch bulk
      (some (c + 1 + (min default_limit.toNat (K - c.toNat) : Nat) - 1)) items
      (c + 1 + (min default_limit.toNat (K - c.toNat) : Nat) - 1) rfl (by omega)
    refine ⟨min default_limit.toNat (K - c.toNat) + n, ?_⟩
    rw [activitySeqs_append, activitySeqs_map_activity, hn]
    rw [show c + 1 + (min default_limit.toNat (K - c.toNat) : Nat) - 1 + 1 =
      (c + 1) + (min default_limit.toNat (K - c.toNat) : Nat) from by push_cast; ring]
    exact seqRun_append (c + 1) (min default_limit.toNat (K - c.toNat)) n

theorem c2_ws_session_gapless_witness :
    ∃ n, activitySeqs (session (orgLog 5) (some 1) 200 100 100
      [.ok 3, .lagged, .ok 5]) = seqRun 2 n :=
  c2_ws_session_gapless 5 1 (by norm_num) 200 100 100 [.ok 3, .lagged, .ok 5]

/-- C3 counterexample: with last_sent_seq = 10 a broker event with seq 13
arrives (a gap; 13 - 10 = 3 is far below the threshold).  Under the claim
the session would use 13 as the known catch-up target, page fetch_since
until row 13 has been sent, and re-enter Live on the still-subscribed
stream, without waiting for a further broker event.  The code instead drops
the subscription and waits for the next event of a fresh one: when no
further event arrives it closes with "activity backlog dropped" having sent
nothing, and when the next fresh-stream event is seq 115 it compares
115 - 10 with the threshold and aborts; row 13 is never sent in either
run. -/
theorem c3_counterexample :
    liveLoop (orgLog 20) 100 WS_BULK_SYNC_THRESHOLD (some 10) [.ok 13] =
      [.errorMsg backlogDropped] ∧
    liveLoop (orgLog 20) 100 WS_BULK_SYNC_THRESHOLD (some 10) [.ok 13, .ok 115] =
      [.errorMsg backlogDropped] ∧
    OutFrame.activity 13 ∉
      liveLoop (orgLog 20) 100 WS_BULK_SYNC_THRESHOLD (some 10) [.ok 13] ∧
    OutFrame.activity 13 ∉
      liveLoop (orgLog 20) 100 WS_BULK_SYNC_THRESHOLD (some 10) [.ok 13, .ok 115] := by
  refine ⟨?_, ?_, ?_, ?_⟩ <;> decide

/-- C3 amended: on a live event with seq s > last_sent_seq + 1 the session
drops its subscription, subscribes afresh and waits for the NEXT broker
event t on the fresh stream to establish the catch-up target (the gap
event's own seq is abandoned); when that event exists, lies above the
cursor, is within the bulk-sync threshold and its row is in the log, the
session pages catch_up_from_db until the row with seq = t has been sent
(emitting exactly p+1, ..., t) and re-enters Live on the fresh
subscription.  The target and the emitted rows depend only on t, not on
s. -/
theorem c3_gap_uses_next_event_target (K : Nat) (batch bulk p s t : Int)
    (rest : List StreamItem) (hp : 0 ≤ p) (hgap : p + 1 < s)
    (ht : p < t) (hbulk : t - p ≤ max bulk 1) (htK : t ≤ K) :
    liveLoop (orgLog K) batch bulk (some p) (.ok s :: .ok t :: rest) =
      (seqRun (p + 1) (t - p).toNat).map .activity ++
        liveLoop (orgLog K) batch bulk (some t) rest := by
  have hcu := catch_up_from_db_exact K p t (max batch 1) hp ht htK
  have hgr : gap_recover (orgLog K) batch bulk p (.ok t) =
      ((seqRun (p + 1) (t - p).toNat).map .activity, .ok t) := by
    simp only [gap_recover]
    rw [if_neg (by omega), if_neg (by omega), hcu]
  exact liveLoop_gap_ok _ _ _ _ _ _ _ _ _ (by omega) hgap hgr

theorem c3_gap_uses_next_event_target_witness :
    liveLoop (orgLog 20) 100 100 (some 10) [.ok 13, .ok 15] =
      (seqRun 11 5).map .activity ++ liveLoop (orgLog 20) 100 100 (some 15) [] :=
  c3_gap_uses_next_event_target 20 100 100 10 13 15 [] (by norm_num) (by norm_num)
    (by norm_num) (by decide) (by norm_num)

/-- C6: when the catch-up target learned during gap or lag recovery exceeds
the bulk-sync threshold (WS_BULK_SYNC_THRESHOLD, default 100, clamped to at
least 1), the session abandons incremental catch-up, emits exactly the error
frame "activity backlog dropped" and the trace ends there (the connection is
closed); a Lag signal arriving before any baseline cursor exists does the
same. -/
theorem c6_bulk_sync_threshold (log : List Int) (batch : Int) :
    WS_BULK_SYNC_THRESHOLD = 100 ∧
    (∀ p s t rest, p + 1 < s → p < t → max WS_BULK_SYNC_THRESHOLD 1 < t - p →
      liveLoop log batch WS_BULK_SYNC_THRESHOLD (some p) (.ok s :: .ok t :: rest) =
        [.errorMsg backlogDropped]) ∧
    (∀ p t rest, p < t → max WS_BULK_SYNC_THRESHOLD 1 < t - p →
      liveLoop log batch WS_BULK_SYNC_THRESHOLD (some p) (.lagged :: .ok t :: rest) =
        [.errorMsg backlogDropped]) ∧
    (∀ rest, liveLoop log batch WS_BULK_SYNC_THRESHOLD none (.lagged :: rest) =
      [.errorMsg backlogDropped]) := by
  refine ⟨rfl, ?_, ?_, liveLoop_none_lag log batch WS_BULK_SYNC_THRESHOLD⟩
  · intro p s t rest hs ht hb
    have hgr : gap_recover log batch WS_BULK_SYNC_THRESHOLD p (.ok t) =
        ([.errorMsg backlogDropped], .error ()) := by
      simp only [gap_recover]
      rw [if_neg (by omega), if_pos hb]
    exact liveLoop_gap_err _ _ _ _ _ _ _ _ (by omega) (by omega) hgr
  · intro p t rest ht hb
    have hgr : gap_recover log batch WS_BULK_SYNC_THRESHOLD p (.ok t) =
        ([.errorMsg backlogDropped], .error ()) := by
      simp only [gap_recover]
      rw [if_neg (by omega), if_pos hb]
    exact liveLoop_lag_err _ _ _ _ _ _ _ hgr

theorem c6_bulk_sync_threshold_witness :
    liveLoop (orgLog 5) 100 WS_BULK_SYNC_THRESHOLD (some 10) [.ok 13, .ok 115] =
      [.errorMsg backlogDropped] ∧
    liveLoop (orgLog 5) 100 WS_BULK_SYNC_THRESHOLD (some 10) [.lagged, .ok 115] =
      [.errorMsg backlogDropped] ∧
    liveLoop (orgLog 5) 100 WS_BULK_SYNC_THRESHOLD none [.lagged] =
      [.errorMsg backlogDropped] :=
  ⟨(c6_bulk_sync_threshold (orgLog 5) 100).2.1 10 13 115 []
      (by norm_num) (by norm_num) (by decide),
   (c6_bulk_sync_threshold (orgLog 5) 100).2.2.1 10 115 []
      (by norm_num) (by decide),
   (c6_bulk_sync_threshold (orgLog 5) 100).2.2.2 []⟩

end VibeKanban
